import Mathlib

/-!
Verification of the `dev_tools` logging facility
(`dev_tools/logging_tools/logger.py` and `dev_tools/logging_tools/singletone.py`).

The Python code is shallowly embedded: the filesystem is an association list
from absolute path to file contents, file contents are an inductive type in
which a gzip container is a constructor wrapping the bytes it compresses, and
each method of `MyLogger` becomes a pure function threading the logger state
and the filesystem.  Wall-clock time is an explicit parameter (`datetime.now()`
is read from it), and I/O failure inside the compression block of
`_archive_log_file` is injected through an explicit flag so that the
exception-propagation behaviour of the `with`-block can be stated.
-/

namespace DevTools

/-- Contents of one file: plain text bytes, a gzip container wrapping the
bytes that were compressed into it, or a raw concatenation (text bytes
appended after a non-text file via append mode). -/
inductive Bytes where
  | text (s : String)
  | gzipped (b : Bytes)
  | cat (b : Bytes) (s : String)
deriving DecidableEq, Repr

/-- Standard gzip decompression of a file's bytes: defined exactly on gzip
containers, recovering the bytes the container was created from. -/
def gunzip : Bytes → Option Bytes
  | .gzipped b => some b
  | _ => none

/-- Appending text bytes to existing file contents (the effect of writing to a
file opened with mode "a"). -/
def Bytes.appendStr : Bytes → String → Bytes
  | .text t, s => .text (t ++ s)
  | b, s => .cat b s

/-- The filesystem: an association list from absolute path to file contents. -/
abbrev FS := List (String × Bytes)

/-- Contents of the file at a path, if it exists. -/
def FS.lookup : FS → String → Option Bytes
  | [], _ => none
  | (p, b) :: fs, q => if p = q then some b else FS.lookup fs q

/-- Deletion of the file at a path (the effect of `os.remove`). -/
def FS.remove : FS → String → FS
  | [], _ => []
  | (p, b) :: fs, q => if p = q then FS.remove fs q else (p, b) :: FS.remove fs q

/-- Creation or replacement of the file at a path (the effect of opening a
path with mode "w"/"wb" and writing contents). -/
def FS.set (fs : FS) (p : String) (b : Bytes) : FS := (p, b) :: fs.remove p

/-- Model of `open(path, "a") ... f.write(s)`: append to the file at the path,
creating it if absent. -/
def FS.appendTo (fs : FS) (p : String) (s : String) : FS :=
  match fs.lookup p with
  | none => fs.set p (.text s)
  | some b => fs.set p (b.appendStr s)

/-- The five logging levels of `MyLogger`. -/
inductive Level where
  | DEBUG | INFO | WARNING | ERROR | CRITICAL
deriving DecidableEq, Repr

/-- The class constant `MyLogger.LEVELS`: numeric severity of each level. -/
def LEVELS : Level → Nat
  | .DEBUG => 1
  | .INFO => 2
  | .WARNING => 3
  | .ERROR => 4
  | .CRITICAL => 5

/-- The name of a level, as the string keying `MyLogger.LEVELS`. -/
def Level.str : Level → String
  | .DEBUG => "DEBUG"
  | .INFO => "INFO"
  | .WARNING => "WARNING"
  | .ERROR => "ERROR"
  | .CRITICAL => "CRITICAL"

/-- The class constant `MyLogger.COLORS` restricted to the five levels. -/
def COLORS : Level → String
  | .DEBUG => "\x1b[94m"
  | .INFO => "\x1b[92m"
  | .WARNING => "\x1b[93m"
  | .ERROR => "\x1b[91m"
  | .CRITICAL => "\x1b[41m"

/-- The entry `MyLogger.COLORS["RESET"]`. -/
def RESET : String := "\x1b[0m"

/-- Python `str.upper()` on the ASCII level-name strings. -/
def strUpper (s : String) : String := String.mk (s.data.map Char.toUpper)

/-- Membership test `level.upper() in MyLogger.LEVELS`, returning the level a
valid name denotes. -/
def parseLevel : String → Option Level
  | "DEBUG" => some .DEBUG
  | "INFO" => some .INFO
  | "WARNING" => some .WARNING
  | "ERROR" => some .ERROR
  | "CRITICAL" => some .CRITICAL
  | _ => none

/-- A process-local wall-clock instant, as `datetime.now()` exposes it. -/
structure DateTime where
  month : Nat
  day : Nat
  year : Nat
  hour : Nat
  minute : Nat
  second : Nat
deriving DecidableEq, Repr

/-- Zero-padding to two digits, as `strftime` does for `%m %d %H %M %S`. -/
def pad2 (n : Nat) : String := if n < 10 then "0" ++ toString n else toString n

/-- Zero-padding to four digits, as `strftime` does for `%Y`. -/
def pad4 (n : Nat) : String :=
  if n < 10 then "000" ++ toString n
  else if n < 100 then "00" ++ toString n
  else if n < 1000 then "0" ++ toString n
  else toString n

/-- Model of `datetime.now().strftime("%m-%d-%Y")`, the body of
`MyLogger._today`. -/
def fmtDate (dt : DateTime) : String :=
  pad2 dt.month ++ "-" ++ pad2 dt.day ++ "-" ++ pad4 dt.year

/-- Model of `datetime.now().strftime("%m-%d-%Y %H:%M:%S")`, the timestamp of
`MyLogger._write_log`. -/
def fmtTimestamp (dt : DateTime) : String :=
  fmtDate dt ++ " " ++ pad2 dt.hour ++ ":" ++ pad2 dt.minute ++ ":" ++ pad2 dt.second

/-- The mutable attributes of the `MyLogger` instance. -/
structure LoggerState where
  log_dir : String
  level : Level
  current_date : String
  log_file : String
deriving DecidableEq, Repr

/-- Model of `os.path.join(dir, name)` for a relative `name`. -/
def pathJoin (dir name : String) : String := dir ++ "/" ++ name

/-- Model of `MyLogger._get_log_filename`. -/
def get_log_filename (st : LoggerState) : String :=
  pathJoin st.log_dir ("log_" ++ st.current_date ++ ".log")

/-- The I/O exceptions the archival path can raise. -/
inductive FsError where
  | fileNotFound
  | ioFailure
deriving DecidableEq, Repr

/-- Model of `MyLogger._archive_log_file`: open the source for binary read
(raising `FileNotFoundError` if it is absent), stream-compress it into
`file_path + ".gz"` (creating or overwriting that target), then delete the
original with `os.remove`.  The flag `ioFail` injects an I/O failure inside
the compression `with`-block: that exception propagates before `os.remove`
runs, so on failure the source entry is untouched. -/
def archive_log_file (ioFail : Bool) (fs : FS) (file_path : String) :
    FS × Option FsError :=
  match fs.lookup file_path with
  | none => (fs, some .fileNotFound)
  | some b =>
    if ioFail then (fs, some .ioFailure)
    else
      let gz_path := file_path ++ ".gz"
      ((fs.set gz_path (.gzipped b)).remove file_path, none)

/-- Python `filename.startswith(p)`. -/
def strStartsWith (s p : String) : Bool := decide (s.data.take p.data.length = p.data)

/-- Python `filename.endswith(p)`. -/
def strEndsWith (s p : String) : Bool :=
  decide (s.data.reverse.take p.data.length = p.data.reverse)

/-- Python slice `s[a:b]` on code points. -/
def pySlice (s : String) (a b : Nat) : String := String.mk ((s.data.drop a).take (b - a))

/-- The loop of `MyLogger._compress_old_logs`, over the directory listing that
`os.listdir` returned when the loop started; an exception raised by an
archival step aborts the loop and propagates. -/
def compressLoop (ioFail : Bool) (log_dir current_date : String) :
    List String → FS → FS × Option FsError
  | [], fs => (fs, none)
  | filename :: rest, fs =>
    if strStartsWith filename "log_" && strEndsWith filename ".log" then
      if pySlice filename 4 14 ≠ current_date then
        match archive_log_file ioFail fs (pathJoin log_dir filename) with
        | (fs1, some e) => (fs1, some e)
        | (fs1, none) => compressLoop ioFail log_dir current_date rest fs1
      else compressLoop ioFail log_dir current_date rest fs
    else compressLoop ioFail log_dir current_date rest fs

/-- Strip a leading character sequence, if present. -/
def dropPref : List Char → List Char → Option (List Char)
  | [], s => some s
  | _ :: _, [] => none
  | c :: p, d :: s => if c = d then dropPref p s else none

/-- Model of `os.listdir(dir)` on the association-list filesystem: the names
of the entries directly inside `dir`. -/
def listdir (fs : FS) (dir : String) : List String :=
  (fs.map Prod.fst).filterMap fun p =>
    match dropPref (dir ++ "/").data p.data with
    | some rest => if rest.contains '/' then none else some (String.mk rest)
    | none => none

/-- Model of `MyLogger._compress_old_logs`. -/
def compress_old_logs (ioFail : Bool) (st : LoggerState) (fs : FS) :
    FS × Option FsError :=
  compressLoop ioFail st.log_dir st.current_date (listdir fs st.log_dir) fs

/-- Model of `MyLogger._rotate_log_file`; `today` is what `self._today()`
returns at the moment of the call. -/
def rotate_log_file (ioFail : Bool) (today : String) (st : LoggerState) (fs : FS) :
    LoggerState × FS × Option FsError :=
  if today ≠ st.current_date then
    match fs.lookup st.log_file with
    | some _ =>
      match archive_log_file ioFail fs st.log_file with
      | (fs1, some e) => (st, fs1, some e)
      | (fs1, none) =>
        let st1 := { st with current_date := today }
        ({ st1 with log_file := get_log_filename st1 }, fs1, none)
    | none =>
      let st1 := { st with current_date := today }
      ({ st1 with log_file := get_log_filename st1 }, fs, none)
  else (st, fs, none)

/-- Outcome of one `_write_log` call: updated state and filesystem, the lines
printed to the console, and the exception propagated if archival failed. -/
structure WriteResult where
  st : LoggerState
  fs : FS
  console : List String
  err : Option FsError
deriving DecidableEq, Repr

/-- Model of `MyLogger._write_log`; `dt` is the process-local wall-clock
instant of the call (both `datetime.now()` reads in the body observe the same
instant). -/
def write_log (ioFail : Bool) (dt : DateTime) (level : Level) (message : String)
    (st : LoggerState) (fs : FS) : WriteResult :=
  if LEVELS level ≥ LEVELS st.level then
    let timestamp := fmtTimestamp dt
    let log_message := "[" ++ timestamp ++ "] [" ++ level.str ++ "] " ++ message
    let console := [COLORS level ++ log_message ++ RESET]
    match rotate_log_file ioFail (fmtDate dt) st fs with
    | (st1, fs1, some e) => ⟨st1, fs1, console, some e⟩
    | (st1, fs1, none) =>
      ⟨st1, fs1.appendTo st1.log_file (log_message ++ "\n"), console, none⟩
  else ⟨st, fs, [], none⟩

/-- Model of `MyLogger.debug`. -/
def MyLogger.debug (ioFail : Bool) (dt : DateTime) (message : String)
    (st : LoggerState) (fs : FS) : WriteResult :=
  write_log ioFail dt .DEBUG message st fs

/-- Model of `MyLogger.info`. -/
def MyLogger.info (ioFail : Bool) (dt : DateTime) (message : String)
    (st : LoggerState) (fs : FS) : WriteResult :=
  write_log ioFail dt .INFO message st fs

/-- Model of `MyLogger.warning`. -/
def MyLogger.warning (ioFail : Bool) (dt : DateTime) (message : String)
    (st : LoggerState) (fs : FS) : WriteResult :=
  write_log ioFail dt .WARNING message st fs

/-- Model of `MyLogger.error`. -/
def MyLogger.error (ioFail : Bool) (dt : DateTime) (message : String)
    (st : LoggerState) (fs : FS) : WriteResult :=
  write_log ioFail dt .ERROR message st fs

/-- Model of `MyLogger.critical`. -/
def MyLogger.critical (ioFail : Bool) (dt : DateTime) (message : String)
    (st : LoggerState) (fs : FS) : WriteResult :=
  write_log ioFail dt .CRITICAL message st fs

/-- Model of `MyLogger.__init__` on first construction; `today` is what
`self._today()` returns there.  The `os.makedirs` call only affects directory
existence, which the association-list filesystem does not track. -/
def myLoggerInit (log_dir level_arg today : String) (ioFail : Bool) (fs : FS) :
    LoggerState × FS × Option FsError :=
  let level := match parseLevel (strUpper level_arg) with
    | some l => l
    | none => .DEBUG
  let st0 : LoggerState :=
    { log_dir := log_dir, level := level, current_date := today, log_file := "" }
  let st := { st0 with log_file := get_log_filename st0 }
  let r := compress_old_logs ioFail st fs
  (st, r.1, r.2)

/-- Model of `Singleton.__call__` as `MyLogger(...)` reaches it: return the
existing instance when there is one (`__init__` does not run again), otherwise
construct the single instance. -/
def getLogger (inst : Option LoggerState) (log_dir level_arg today : String)
    (ioFail : Bool) (fs : FS) : LoggerState × FS × Option FsError :=
  match inst with
  | some st => (st, fs, none)
  | none => myLoggerInit log_dir level_arg today ioFail fs

/-! ### String utilities -/

theorem str_ext {s t : String} (h : s.data = t.data) : s = t := by
  cases s; cases t; cases h; rfl

theorem str_append_cancel_left {a b c : String} (h : a ++ b = a ++ c) : b = c := by
  apply str_ext
  have hd : a.data ++ b.data = a.data ++ c.data := by
    rw [← String.data_append, ← String.data_append, h]
  exact List.append_cancel_left hd

theorem str_append_cancel_right {a b c : String} (h : a ++ c = b ++ c) : a = b := by
  apply str_ext
  have hd : a.data ++ c.data = b.data ++ c.data := by
    rw [← String.data_append, ← String.data_append, h]
  exact List.append_cancel_right hd

theorem pathJoin_inj {d a b : String} (h : pathJoin d a = pathJoin d b) : a = b :=
  str_append_cancel_left (a := d ++ "/") h

theorem gz_ne_log (s t : String) : s ++ ".gz" ≠ t ++ ".log" := by
  intro h
  have hd : s.data ++ (".gz" : String).data = t.data ++ (".log" : String).data := by
    rw [← String.data_append, ← String.data_append, h]
  have h1 := congrArg List.getLast? hd
  rw [List.getLast?_append, List.getLast?_append] at h1
  have e1 : (".gz" : String).data.getLast? = some 'z' := by decide
  have e2 : (".log" : String).data.getLast? = some 'g' := by decide
  rw [e1, e2] at h1
  have e3 : (some 'z' : Option Char).or s.data.getLast? = some 'z' := rfl
  have e4 : (some 'g' : Option Char).or t.data.getLast? = some 'g' := rfl
  rw [e3, e4] at h1
  exact absurd h1 (by decide)

theorem append_gz_ne_self (s : String) : s ++ ".gz" ≠ s := by
  intro h
  have hd : (s ++ ".gz").data.length = s.data.length := congrArg (List.length ∘ String.data) h
  rw [String.data_append, List.length_append] at hd
  have e1 : (".gz" : String).data.length = 3 := by decide
  omega

/-! ### Filesystem lemmas -/

theorem FS.lookup_remove_self (fs : FS) (p : String) : (fs.remove p).lookup p = none := by
  induction fs with
  | nil => rfl
  | cons e fs ih =>
    obtain ⟨q, b⟩ := e
    by_cases h : q = p
    · simpa [FS.remove, h] using ih
    · simpa [FS.remove, FS.lookup, h] using ih

theorem FS.lookup_remove_ne (fs : FS) {p q : String} (h : p ≠ q) :
    (fs.remove p).lookup q = fs.lookup q := by
  induction fs with
  | nil => rfl
  | cons e fs ih =>
    obtain ⟨r, b⟩ := e
    by_cases hr : r = p
    · subst hr
      simpa [FS.remove, FS.lookup, h] using ih
    · by_cases hq : r = q
      · subst hq
        simp [FS.remove, FS.lookup, hr]
      · simpa [FS.remove, FS.lookup, hr, hq] using ih

theorem FS.lookup_set_self (fs : FS) (p : String) (b : Bytes) :
    (fs.set p b).lookup p = some b := by
  simp [FS.set, FS.lookup]

theorem FS.lookup_set_ne (fs : FS) {p q : String} (h : p ≠ q) (b : Bytes) :
    (fs.set p b).lookup q = fs.lookup q := by
  simp [FS.set, FS.lookup, h, FS.lookup_remove_ne fs h]

theorem FS.lookup_of_mem_keys {fs : FS} {p : String} (h : p ∈ fs.map Prod.fst) :
    ∃ b, fs.lookup p = some b := by
  induction fs with
  | nil => simp at h
  | cons e fs ih =>
    obtain ⟨q, b⟩ := e
    by_cases hq : q = p
    · exact ⟨b, by simp [FS.lookup, hq]⟩
    · have hm : p ∈ fs.map Prod.fst := by
        simpa [hq, Ne.symm hq] using h
      obtain ⟨c, hc⟩ := ih hm
      exact ⟨c, by simp [FS.lookup, hq, hc]⟩

theorem FS.lookup_appendTo_ne (fs : FS) {p q : String} (h : p ≠ q) (s : String) :
    (fs.appendTo p s).lookup q = fs.lookup q := by
  unfold FS.appendTo
  cases fs.lookup p <;> simp [FS.lookup_set_ne fs h]

theorem FS.lookup_appendTo_self_none {fs : FS} {p : String} (h : fs.lookup p = none)
    (s : String) : (fs.appendTo p s).lookup p = some (.text s) := by
  simp [FS.appendTo, h, FS.lookup_set_self]

theorem FS.lookup_appendTo_self_text {fs : FS} {p t : String}
    (h : fs.lookup p = some (.text t)) (s : String) :
    (fs.appendTo p s).lookup p = some (.text (t ++ s)) := by
  simp [FS.appendTo, h, Bytes.appendStr, FS.lookup_set_self]

/-! ### Equations for the archival and rotation operations -/

theorem archive_eq_of_none {fs : FS} {p : String} (io : Bool) (h : fs.lookup p = none) :
    archive_log_file io fs p = (fs, some .fileNotFound) := by
  simp [archive_log_file, h]

theorem archive_eq_of_some {fs : FS} {p : String} {b : Bytes} (h : fs.lookup p = some b) :
    archive_log_file false fs p = ((fs.set (p ++ ".gz") (.gzipped b)).remove p, none) := by
  simp [archive_log_file, h]

theorem archive_eq_of_some_fail {fs : FS} {p : String} {b : Bytes}
    (h : fs.lookup p = some b) : archive_log_file true fs p = (fs, some .ioFailure) := by
  simp [archive_log_file, h]

theorem rotate_eq_of_same {io : Bool} {today : String} {st : LoggerState} {fs : FS}
    (h : today = st.current_date) : rotate_log_file io today st fs = (st, fs, none) := by
  simp [rotate_log_file, h]

theorem rotate_eq_of_none {io : Bool} {today : String} {st : LoggerState} {fs : FS}
    (hd : today ≠ st.current_date) (hl : fs.lookup st.log_file = none) :
    rotate_log_file io today st fs =
      ({ st with current_date := today,
                 log_file := pathJoin st.log_dir ("log_" ++ today ++ ".log") }, fs, none) := by
  simp [rotate_log_file, hd, hl, get_log_filename]

theorem rotate_eq_of_some {today : String} {st : LoggerState} {fs : FS} {b : Bytes}
    (hd : today ≠ st.current_date) (hl : fs.lookup st.log_file = some b) :
    rotate_log_file false today st fs =
      ({ st with current_date := today,
                 log_file := pathJoin st.log_dir ("log_" ++ today ++ ".log") },
       (fs.set (st.log_file ++ ".gz") (.gzipped b)).remove st.log_file, none) := by
  simp [rotate_log_file, hd, hl, archive_log_file, get_log_filename]

theorem rotate_false_no_err (today : String) (st : LoggerState) (fs : FS) :
    (rotate_log_file false today st fs).2.2 = none := by
  by_cases hd : today = st.current_date
  · rw [rotate_eq_of_same hd]
  · cases hl : fs.lookup st.log_file with
    | none => rw [rotate_eq_of_none hd hl]
    | some b => rw [rotate_eq_of_some hd hl]

theorem write_log_eq_below {io : Bool} {dt : DateTime} {l : Level} {m : String}
    {st : LoggerState} {fs : FS} (h : LEVELS l < LEVELS st.level) :
    write_log io dt l m st fs = ⟨st, fs, [], none⟩ := by
  have h2 : ¬ LEVELS l ≥ LEVELS st.level := by omega
  simp [write_log, h2]

/-! ### Claims about the archival operation -/

/-- Claim C2, counterexample: invoking the archive operation (the cited
`_archive_log_file`) on a path with no file is not an error-free no-op — the
unconditional `open(file_path, "rb")` raises `FileNotFoundError`. -/
theorem archive_missing_file_raises_cx :
    archive_log_file false ([] : FS) "logs/log_01-01-2020.log"
      = ([], some FsError.fileNotFound) := by rfl

/-- Claim C2, amended: invoking `_archive_log_file` on a path with no file
raises `FileNotFoundError` while leaving the filesystem — in particular any
existing `.gz` target — completely unchanged; the no-op behaviour for a
vanished source holds for the rotation-time archival, whose call site guards
the call with an existence check, so rotation over a missing active file
changes no file and raises nothing. -/
theorem archive_missing_file_guarded :
    (∀ (io : Bool) (fs : FS) (path : String), fs.lookup path = none →
        archive_log_file io fs path = (fs, some FsError.fileNotFound))
    ∧ (∀ (io : Bool) (today : String) (st : LoggerState) (fs : FS),
        fs.lookup st.log_file = none →
        (rotate_log_file io today st fs).2 = (fs, none)) := by
  constructor
  · intro io fs path h
    exact archive_eq_of_none io h
  · intro io today st fs h
    by_cases hd : today = st.current_date
    · rw [rotate_eq_of_same hd]
    · rw [rotate_eq_of_none hd h]

/-- Witness for the amended claim C2 at a concrete missing file. -/
theorem archive_missing_file_guarded_witness :
    archive_log_file false ([] : FS) "logs/log_01-01-2020.log"
      = ([], some FsError.fileNotFound)
    ∧ (rotate_log_file false "01-02-2020"
        ⟨"logs", .DEBUG, "01-01-2020", "logs/log_01-01-2020.log"⟩ []).2 = ([], none) :=
  ⟨archive_missing_file_guarded.1 false [] "logs/log_01-01-2020.log" (by rfl),
   archive_missing_file_guarded.2 false "01-02-2020"
     ⟨"logs", .DEBUG, "01-01-2020", "logs/log_01-01-2020.log"⟩ [] (by rfl)⟩

/-- Claim C5: the original file is deleted only after compression into
`path + ".gz"` has fully completed — in every outcome in which the source
entry is gone, the archival finished without error and the complete `.gz`
container is present; and if compression I/O fails, the source entry is left
intact and the exception is surfaced, not swallowed. -/
theorem archive_deletes_only_after_compression (io : Bool) (fs : FS) (path : String)
    (b : Bytes) (h : fs.lookup path = some b) :
    ((archive_log_file io fs path).1.lookup path = none →
      (archive_log_file io fs path).2 = none
      ∧ (archive_log_file io fs path).1.lookup (path ++ ".gz") = some (.gzipped b))
    ∧ (io = true →
      (archive_log_file io fs path).1.lookup path = some b
      ∧ (archive_log_file io fs path).2 = some FsError.ioFailure) := by
  cases io with
  | true =>
    rw [archive_eq_of_some_fail h]
    exact ⟨fun hc => absurd (h ▸ hc) (by simp), fun _ => ⟨h, rfl⟩⟩
  | false =>
    rw [archive_eq_of_some h]
    refine ⟨fun _ => ⟨rfl, ?_⟩, fun hc => absurd hc (by simp)⟩
    rw [FS.lookup_remove_ne _ fun hc => append_gz_ne_self path hc.symm]
    exact FS.lookup_set_self fs (path ++ ".gz") (.gzipped b)

/-- Witness for claim C5 at a concrete file, in both the success and the
injected-failure outcome. -/
theorem archive_deletes_only_after_compression_witness :
    ((archive_log_file true [("logs/log_01-01-2020.log", Bytes.text "old")]
        "logs/log_01-01-2020.log").1.lookup "logs/log_01-01-2020.log"
      = some (Bytes.text "old"))
    ∧ (archive_log_file true [("logs/log_01-01-2020.log", Bytes.text "old")]
        "logs/log_01-01-2020.log").2 = some FsError.ioFailure :=
  (archive_deletes_only_after_compression true
    [("logs/log_01-01-2020.log", Bytes.text "old")] "logs/log_01-01-2020.log"
    (Bytes.text "old") (by rfl)).2 rfl

/-- Claim C7: after a successful archival of a file holding bytes `b`, the
file `path + ".gz"` exists (overwriting any previous `.gz` of that name, since
the filesystem `fs` is arbitrary), gzip-decompressing it yields exactly `b`,
and the plain original is gone. -/
theorem archive_gzip_roundtrip (fs : FS) (path : String) (b : Bytes)
    (h : fs.lookup path = some b) :
    (archive_log_file false fs path).1.lookup (path ++ ".gz") = some (Bytes.gzipped b)
    ∧ gunzip (Bytes.gzipped b) = some b
    ∧ (archive_log_file false fs path).1.lookup path = none := by
  rw [archive_eq_of_some h]
  refine ⟨?_, rfl, FS.lookup_remove_self _ path⟩
  rw [FS.lookup_remove_ne _ fun hc => append_gz_ne_self path hc.symm]
  exact FS.lookup_set_self fs (path ++ ".gz") (.gzipped b)

/-- Witness for claim C7 at a concrete file whose `.gz` target already
exists. -/
theorem archive_gzip_roundtrip_witness :
    (archive_log_file false
        [("logs/log_01-01-2020.log", Bytes.text "old"),
         ("logs/log_01-01-2020.log.gz", Bytes.gzipped (Bytes.text "stale"))]
        "logs/log_01-01-2020.log").1.lookup ("logs/log_01-01-2020.log" ++ ".gz")
      = some (Bytes.gzipped (Bytes.text "old"))
    ∧ gunzip (Bytes.gzipped (Bytes.text "old")) = some (Bytes.text "old")
    ∧ (archive_log_file false
        [("logs/log_01-01-2020.log", Bytes.text "old"),
         ("logs/log_01-01-2020.log.gz", Bytes.gzipped (Bytes.text "stale"))]
        "logs/log_01-01-2020.log").1.lookup "logs/log_01-01-2020.log" = none :=
  archive_gzip_roundtrip
    [("logs/log_01-01-2020.log", Bytes.text "old"),
     ("logs/log_01-01-2020.log.gz", Bytes.gzipped (Bytes.text "stale"))]
    "logs/log_01-01-2020.log" (Bytes.text "old") (by rfl)

/-! ### Claims about the level threshold -/

/-- Claim C3, counterexample: with `severity(L1) ≤ severity(L2)` read
inclusively, the claim fails — for `L1 = L2 = DEBUG` the guard
`LEVELS[level] >= LEVELS[self.level]` passes, so the call produces console
output and a disk write. -/
theorem equal_severity_still_logs_cx :
    LEVELS Level.DEBUG ≤ LEVELS Level.DEBUG
    ∧ (write_log false ⟨10, 12, 2026, 1, 2, 3⟩ Level.DEBUG "x"
        ⟨"logs", Level.DEBUG, "10-12-2026", "logs/log_10-12-2026.log"⟩ []).console ≠ []
    ∧ (write_log false ⟨10, 12, 2026, 1, 2, 3⟩ Level.DEBUG "x"
        ⟨"logs", Level.DEBUG, "10-12-2026", "logs/log_10-12-2026.log"⟩ []).fs ≠ [] := by
  decide

/-- Claim C3, amended: for all valid levels L1 and L2 with
`severity(L1) < severity(L2)` (strictly below the threshold), if the logger's
minimum level is L2 then an L1-level call produces no console output and no
disk write. -/
theorem below_threshold_no_output (io : Bool) (dt : DateTime) (l : Level)
    (msg : String) (st : LoggerState) (fs : FS) (h : LEVELS l < LEVELS st.level) :
    (write_log io dt l msg st fs).console = [] ∧ (write_log io dt l msg st fs).fs = fs := by
  rw [write_log_eq_below h]
  exact ⟨rfl, rfl⟩

/-- Witness for the amended claim C3: a DEBUG call under minimum level INFO. -/
theorem below_threshold_no_output_witness :
    (write_log false ⟨10, 12, 2026, 1, 2, 3⟩ Level.DEBUG "x"
        ⟨"logs", Level.INFO, "10-12-2026", "logs/log_10-12-2026.log"⟩ []).console = []
    ∧ (write_log false ⟨10, 12, 2026, 1, 2, 3⟩ Level.DEBUG "x"
        ⟨"logs", Level.INFO, "10-12-2026", "logs/log_10-12-2026.log"⟩ []).fs = [] :=
  below_threshold_no_output false ⟨10, 12, 2026, 1, 2, 3⟩ Level.DEBUG "x"
    ⟨"logs", Level.INFO, "10-12-2026", "logs/log_10-12-2026.log"⟩ [] (by decide)

/-- Claim C10: a call strictly below the threshold performs no rotation check
at all — even when the wall-clock date differs from the tracked date, the
state (including `current_date` and `log_file`), the filesystem, the console,
and the error channel are all left exactly unchanged. -/
theorem below_threshold_no_rotation (io : Bool) (dt : DateTime) (l : Level)
    (msg : String) (st : LoggerState) (fs : FS)
    (hlvl : LEVELS l < LEVELS st.level) (_hdate : fmtDate dt ≠ st.current_date) :
    write_log io dt l msg st fs = ⟨st, fs, [], none⟩ :=
  write_log_eq_below hlvl

/-- Witness for claim C10: a DEBUG call under minimum level ERROR on a stale
tracked date changes nothing. -/
theorem below_threshold_no_rotation_witness :
    write_log false ⟨10, 12, 2026, 1, 2, 3⟩ Level.DEBUG "x"
        ⟨"logs", Level.ERROR, "01-01-2020", "logs/log_01-01-2020.log"⟩
        [("logs/log_01-01-2020.log", Bytes.text "old")]
      = ⟨⟨"logs", Level.ERROR, "01-01-2020", "logs/log_01-01-2020.log"⟩,
         [("logs/log_01-01-2020.log", Bytes.text "old")], [], none⟩ :=
  below_threshold_no_rotation false ⟨10, 12, 2026, 1, 2, 3⟩ Level.DEBUG "x"
    ⟨"logs", Level.ERROR, "01-01-2020", "logs/log_01-01-2020.log"⟩
    [("logs/log_01-01-2020.log", Bytes.text "old")] (by decide) (by decide)

/-! ### Claims about the singleton access path -/

/-- Claim C8: a second `getLogger` call — whatever directory, level, date or
filesystem it is given — returns exactly the instance produced by the first
call, touches nothing, and the instance keeps the first call's directory (and,
being the same instance, the first call's minimum level). -/
theorem getLogger_configure_once (d1 lv1 t1 d2 lv2 t2 : String) (io1 io2 : Bool)
    (fs1 fs2 : FS) :
    getLogger (some (getLogger none d1 lv1 t1 io1 fs1).1) d2 lv2 t2 io2 fs2
      = ((getLogger none d1 lv1 t1 io1 fs1).1, fs2, none)
    ∧ (getLogger none d1 lv1 t1 io1 fs1).1.log_dir = d1
    ∧ (getLogger (some (getLogger none d1 lv1 t1 io1 fs1).1) d2 lv2 t2 io2 fs2).1.level
        = (getLogger none d1 lv1 t1 io1 fs1).1.level :=
  ⟨rfl, rfl, rfl⟩

/-! ### Claim about the activeFilePath invariant -/

/-- The invariant of claim C9: the stored active file path is the
deterministic function of the directory and the tracked date. -/
def ActiveFileInv (st : LoggerState) : Prop := st.log_file = get_log_filename st

instance (st : LoggerState) : Decidable (ActiveFileInv st) := by
  unfold ActiveFileInv
  infer_instance

/-- Claim C9: construction establishes, and rotation and every logging call
preserve, the invariant `log_file = {log_dir}/log_{current_date}.log`. -/
theorem activeFilePath_invariant :
    (∀ (d lv t : String) (io : Bool) (fs : FS),
        ActiveFileInv (myLoggerInit d lv t io fs).1)
    ∧ (∀ (io : Bool) (t : String) (st : LoggerState) (fs : FS),
        ActiveFileInv st → ActiveFileInv (rotate_log_file io t st fs).1)
    ∧ (∀ (io : Bool) (dt : DateTime) (l : Level) (m : String) (st : LoggerState)
        (fs : FS), ActiveFileInv st → ActiveFileInv (write_log io dt l m st fs).st) := by
  have hrot : ∀ (io : Bool) (t : String) (st : LoggerState) (fs : FS),
      ActiveFileInv st → ActiveFileInv (rotate_log_file io t st fs).1 := by
    intro io t st fs h
    by_cases hd : t = st.current_date
    · rw [rotate_eq_of_same hd]
      exact h
    · cases hl : fs.lookup st.log_file with
      | none =>
        rw [rotate_eq_of_none hd hl]
        simp [ActiveFileInv, get_log_filename]
      | some b =>
        cases io with
        | false =>
          rw [rotate_eq_of_some hd hl]
          simp [ActiveFileInv, get_log_filename]
        | true =>
          rw [show rotate_log_file true t st fs = (st, fs, some .ioFailure) by
            simp [rotate_log_file, hd, hl, archive_log_file]]
          exact h
  refine ⟨?_, hrot, ?_⟩
  · intro d lv t io fs
    simp [myLoggerInit, ActiveFileInv, get_log_filename]
  · intro io dt l m st fs h
    by_cases hlvl : LEVELS l ≥ LEVELS st.level
    · rcases hr : rotate_log_file io (fmtDate dt) st fs with ⟨st1, fs1, e⟩
      have h1 : ActiveFileInv st1 := by
        have := hrot io (fmtDate dt) st fs h
        rw [hr] at this
        exact this
      cases e <;> simp [write_log, hlvl, hr] <;> exact h1
    · rw [write_log_eq_below (by omega)]
      exact h

/-- Witness for claim C9 at concrete states for each of the three parts. -/
theorem activeFilePath_invariant_witness :
    ActiveFileInv (myLoggerInit "logs" "DEBUG" "10-12-2026" false []).1
    ∧ ActiveFileInv (rotate_log_file false "10-12-2026"
        ⟨"logs", .DEBUG, "01-01-2020", "logs/log_01-01-2020.log"⟩ []).1
    ∧ ActiveFileInv (write_log false ⟨10, 12, 2026, 1, 2, 3⟩ Level.INFO "m"
        ⟨"logs", .DEBUG, "01-01-2020", "logs/log_01-01-2020.log"⟩ []).st :=
  ⟨activeFilePath_invariant.1 "logs" "DEBUG" "10-12-2026" false [],
   activeFilePath_invariant.2.1 false "10-12-2026"
     ⟨"logs", .DEBUG, "01-01-2020", "logs/log_01-01-2020.log"⟩ [] (by decide),
   activeFilePath_invariant.2.2 false ⟨10, 12, 2026, 1, 2, 3⟩ Level.INFO "m"
     ⟨"logs", .DEBUG, "01-01-2020", "logs/log_01-01-2020.log"⟩ [] (by decide)⟩

/-! ### Claims about the write path -/

/-- Claim C4: the line appended by an at-or-above-threshold write is exactly
`"[" ++ timestamp ++ "] [" ++ LEVEL ++ "] " ++ message ++ "\n"`, carrying the
message verbatim: relative to the filesystem the rotation check produced, the
active file after the call holds its previous text followed by exactly that
line (or exactly that line if it did not exist). -/
theorem written_line_exact_format (dt : DateTime) (l : Level) (msg : String)
    (st : LoggerState) (fs : FS) (h : LEVELS st.level ≤ LEVELS l) :
    ((rotate_log_file false (fmtDate dt) st fs).2.1.lookup
        (write_log false dt l msg st fs).st.log_file = none →
      (write_log false dt l msg st fs).fs.lookup
          (write_log false dt l msg st fs).st.log_file
        = some (.text ("[" ++ fmtTimestamp dt ++ "] [" ++ l.str ++ "] " ++ msg ++ "\n")))
    ∧ (∀ t, (rotate_log_file false (fmtDate dt) st fs).2.1.lookup
        (write_log false dt l msg st fs).st.log_file = some (.text t) →
      (write_log false dt l msg st fs).fs.lookup
          (write_log false dt l msg st fs).st.log_file
        = some (.text (t ++ ("[" ++ fmtTimestamp dt ++ "] [" ++ l.str ++ "] " ++ msg
            ++ "\n")))) := by
  rcases hr : rotate_log_file false (fmtDate dt) st fs with ⟨st1, fs1, e⟩
  have he : e = none := by
    have := rotate_false_no_err (fmtDate dt) st fs
    rw [hr] at this
    exact this
  subst he
  have hw : write_log false dt l msg st fs =
      ⟨st1, fs1.appendTo st1.log_file
        ("[" ++ fmtTimestamp dt ++ "] [" ++ l.str ++ "] " ++ msg ++ "\n"),
       [COLORS l ++ ("[" ++ fmtTimestamp dt ++ "] [" ++ l.str ++ "] " ++ msg) ++ RESET],
       none⟩ := by
    simp [write_log, h, hr]
  rw [hw]
  constructor
  · intro hn
    exact FS.lookup_appendTo_self_none hn _
  · intro t ht
    exact FS.lookup_appendTo_self_text ht _

/-- Witness for claim C4: an INFO write under minimum level INFO appends the
exactly formatted line to the file the call leaves active. -/
theorem written_line_exact_format_witness :
    ((rotate_log_file false (fmtDate ⟨10, 12, 2026, 7, 8, 9⟩)
        ⟨"logs", Level.INFO, "10-12-2026", "logs/log_10-12-2026.log"⟩
        [("logs/log_10-12-2026.log", Bytes.text "pre\n")]).2.1.lookup
      (write_log false ⟨10, 12, 2026, 7, 8, 9⟩ Level.INFO "hello"
        ⟨"logs", Level.INFO, "10-12-2026", "logs/log_10-12-2026.log"⟩
        [("logs/log_10-12-2026.log", Bytes.text "pre\n")]).st.log_file
      = some (Bytes.text "pre\n"))
    ∧ (write_log false ⟨10, 12, 2026, 7, 8, 9⟩ Level.INFO "hello"
        ⟨"logs", Level.INFO, "10-12-2026", "logs/log_10-12-2026.log"⟩
        [("logs/log_10-12-2026.log", Bytes.text "pre\n")]).fs.lookup
      (write_log false ⟨10, 12, 2026, 7, 8, 9⟩ Level.INFO "hello"
        ⟨"logs", Level.INFO, "10-12-2026", "logs/log_10-12-2026.log"⟩
        [("logs/log_10-12-2026.log", Bytes.text "pre\n")]).st.log_file
      = some (Bytes.text ("pre\n" ++ ("[" ++ fmtTimestamp ⟨10, 12, 2026, 7, 8, 9⟩
          ++ "] [" ++ Level.str Level.INFO ++ "] " ++ "hello" ++ "\n"))) :=
  ⟨by decide,
   (written_line_exact_format ⟨10, 12, 2026, 7, 8, 9⟩ Level.INFO "hello"
      ⟨"logs", Level.INFO, "10-12-2026", "logs/log_10-12-2026.log"⟩
      [("logs/log_10-12-2026.log", Bytes.text "pre\n")] (by decide)).2
    "pre\n" (by decide)⟩

/-- Claim C1: an at-or-above-threshold write on a call whose wall-clock date
differs from the tracked date first archives the file at the current active
path (when it exists: its `.gz` appears and the plain file disappears), sets
the tracked date to today, recomputes the active path to today's name, and
appends the message to the file named for today — never to the just-archived
file, which stays absent after the call. -/
theorem write_rotates_on_date_change (dt : DateTime) (l : Level) (msg : String)
    (st : LoggerState) (fs : FS)
    (hlvl : LEVELS st.level ≤ LEVELS l)
    (hdate : fmtDate dt ≠ st.current_date)
    (hinv : st.log_file = get_log_filename st) :
    (write_log false dt l msg st fs).st.current_date = fmtDate dt
    ∧ (write_log false dt l msg st fs).st.log_file
        = pathJoin st.log_dir ("log_" ++ fmtDate dt ++ ".log")
    ∧ (∀ b, fs.lookup st.log_file = some b →
        (write_log false dt l msg st fs).fs.lookup st.log_file = none
        ∧ (write_log false dt l msg st fs).fs.lookup (st.log_file ++ ".gz")
            = some (.gzipped b))
    ∧ (fs.lookup (pathJoin st.log_dir ("log_" ++ fmtDate dt ++ ".log")) = none →
        (write_log false dt l msg st fs).fs.lookup
            (pathJoin st.log_dir ("log_" ++ fmtDate dt ++ ".log"))
          = some (.text ("[" ++ fmtTimestamp dt ++ "] [" ++ l.str ++ "] " ++ msg
              ++ "\n")))
    ∧ (write_log false dt l msg st fs).err = none := by
  have hnewold : pathJoin st.log_dir ("log_" ++ fmtDate dt ++ ".log") ≠ st.log_file := by
    rw [hinv]
    intro hc
    have h1 := pathJoin_inj (d := st.log_dir) hc
    have h2 := str_append_cancel_left (a := "log_") h1
    exact hdate (str_append_cancel_right (c := ".log") h2)
  have hassoc : pathJoin st.log_dir ("log_" ++ fmtDate dt ++ ".log")
      = (st.log_dir ++ "/" ++ ("log_" ++ fmtDate dt)) ++ ".log" := by
    unfold pathJoin
    simp [String.append_assoc]
  have hnewgz : pathJoin st.log_dir ("log_" ++ fmtDate dt ++ ".log")
      ≠ st.log_file ++ ".gz" := by
    rw [hassoc]
    intro hc
    exact gz_ne_log st.log_file (st.log_dir ++ "/" ++ ("log_" ++ fmtDate dt)) hc.symm
  cases hl : fs.lookup st.log_file with
  | some b =>
    have hw : write_log false dt l msg st fs =
        ⟨{ st with current_date := fmtDate dt,
                   log_file := pathJoin st.log_dir ("log_" ++ fmtDate dt ++ ".log") },
          (((fs.set (st.log_file ++ ".gz") (.gzipped b)).remove st.log_file).appendTo
            (pathJoin st.log_dir ("log_" ++ fmtDate dt ++ ".log"))
            ("[" ++ fmtTimestamp dt ++ "] [" ++ l.str ++ "] " ++ msg ++ "\n")),
          [COLORS l ++ ("[" ++ fmtTimestamp dt ++ "] [" ++ l.str ++ "] " ++ msg) ++ RESET],
          none⟩ := by
      simp [write_log, hlvl, rotate_eq_of_some hdate hl]
    rw [hw]
    refine ⟨rfl, rfl, ?_, ?_, rfl⟩
    · intro b2 hb2
      have hb : b2 = b := (Option.some.inj hb2).symm
      subst hb
      constructor
      · rw [FS.lookup_appendTo_ne _ hnewold]
        exact FS.lookup_remove_self _ st.log_file
      · rw [FS.lookup_appendTo_ne _ hnewgz]
        rw [FS.lookup_remove_ne _ fun hc => append_gz_ne_self st.log_file hc.symm]
        exact FS.lookup_set_self _ _ _
    · intro hnew
      apply FS.lookup_appendTo_self_none
      rw [FS.lookup_remove_ne _ (Ne.symm hnewold)]
      rw [FS.lookup_set_ne _ (Ne.symm hnewgz)]
      exact hnew
  | none =>
    have hw : write_log false dt l msg st fs =
        ⟨{ st with current_date := fmtDate dt,
                   log_file := pathJoin st.log_dir ("log_" ++ fmtDate dt ++ ".log") },
          fs.appendTo (pathJoin st.log_dir ("log_" ++ fmtDate dt ++ ".log"))
            ("[" ++ fmtTimestamp dt ++ "] [" ++ l.str ++ "] " ++ msg ++ "\n"),
          [COLORS l ++ ("[" ++ fmtTimestamp dt ++ "] [" ++ l.str ++ "] " ++ msg) ++ RESET],
          none⟩ := by
      simp [write_log, hlvl, rotate_eq_of_none hdate hl]
    rw [hw]
    refine ⟨rfl, rfl, ?_, ?_, rfl⟩
    · intro b2 hb2
      exact absurd hb2 (by simp)
    · intro hnew
      exact FS.lookup_appendTo_self_none hnew _

/-- Witness for claim C1: an INFO write dated 10-12-2026 on a logger tracking
01-01-2020 archives the old file and starts today's file with the message. -/
theorem write_rotates_on_date_change_witness :
    (write_log false ⟨10, 12, 2026, 7, 8, 9⟩ Level.INFO "hello"
        ⟨"logs", Level.INFO, "01-01-2020", "logs/log_01-01-2020.log"⟩
        [("logs/log_01-01-2020.log", Bytes.text "old\n")]).fs.lookup
      "logs/log_01-01-2020.log" = none
    ∧ (write_log false ⟨10, 12, 2026, 7, 8, 9⟩ Level.INFO "hello"
        ⟨"logs", Level.INFO, "01-01-2020", "logs/log_01-01-2020.log"⟩
        [("logs/log_01-01-2020.log", Bytes.text "old\n")]).fs.lookup
      ("logs/log_01-01-2020.log" ++ ".gz") = some (Bytes.gzipped (Bytes.text "old\n")) :=
  (write_rotates_on_date_change ⟨10, 12, 2026, 7, 8, 9⟩ Level.INFO "hello"
      ⟨"logs", Level.INFO, "01-01-2020", "logs/log_01-01-2020.log"⟩
      [("logs/log_01-01-2020.log", Bytes.text "old\n")]
      (by decide) (by decide) (by decide)).2.2.1
    (Bytes.text "old\n") (by decide)

/-! ### The startup archival scan -/

/-- The condition under which the startup scan archives a directory entry, as
the source tests it: the `log_` prefix, the `.log` suffix, and the slice
`name[4:14]` differing from the tracked date. -/
def StaleLog (current_date n : String) : Prop :=
  strStartsWith n "log_" = true ∧ strEndsWith n ".log" = true
    ∧ pySlice n 4 14 ≠ current_date

instance (c n : String) : Decidable (StaleLog c n) := by
  unfold StaleLog
  infer_instance

/-- The filename pattern `log_<10-char-date>.log` as the specification words
it: the `log_` prefix, a 10-character embedded date, and the `.log` suffix —
18 characters in all.  Stated for comparison with the source's test, which
checks only the prefix and the suffix. -/
def specLogNamePattern (n : String) : Bool :=
  strStartsWith n "log_" && strEndsWith n ".log" && decide (n.data.length = 18)

theorem strEndsWith_ex {s p : String} (h : strEndsWith s p = true) :
    ∃ t, s = t ++ p := by
  unfold strEndsWith at h
  have h1 : s.data.reverse.take p.data.length = p.data.reverse := of_decide_eq_true h
  have h2 : s.data.reverse
      = p.data.reverse ++ s.data.reverse.drop p.data.length := by
    conv_lhs => rw [← List.take_append_drop p.data.length s.data.reverse]
    rw [h1]
  have h4 : s.data = (s.data.reverse.drop p.data.length).reverse ++ p.data := by
    conv_lhs => rw [← List.reverse_reverse s.data, h2]
    rw [List.reverse_append, List.reverse_reverse]
  refine ⟨String.mk (s.data.reverse.drop p.data.length).reverse, ?_⟩
  apply str_ext
  rw [String.data_append]
  exact h4

theorem dropPref_eq_append {p s r : List Char} (h : dropPref p s = some r) :
    s = p ++ r := by
  induction p generalizing s with
  | nil =>
    cases h
    rfl
  | cons c p ih =>
    cases s with
    | nil => cases h
    | cons d s =>
      by_cases hc : c = d
      · subst hc
        have h2 : dropPref p s = some r := by
          simpa [dropPref] using h
        rw [ih h2]
        rfl
      · rw [dropPref, if_neg hc] at h
        cases h

theorem dropPref_append (p r : List Char) : dropPref p (p ++ r) = some r := by
  induction p with
  | nil => rfl
  | cons c p ih => simp [dropPref, ih]

theorem listdir_key {fs : FS} {dir n : String} (h : n ∈ listdir fs dir) :
    pathJoin dir n ∈ fs.map Prod.fst := by
  unfold listdir at h
  obtain ⟨p, hp, hf⟩ := List.mem_filterMap.mp h
  cases hd : dropPref (dir ++ "/").data p.data with
  | none => rw [hd] at hf; cases hf
  | some rest =>
    rw [hd] at hf
    have hf2 : (if rest.contains '/' = true then (none : Option String)
        else some (String.mk rest)) = some n := hf
    by_cases hc : rest.contains '/' = true
    · rw [if_pos hc] at hf2; cases hf2
    · rw [if_neg hc] at hf2
      have hn : n.data = rest := by
        have := Option.some.inj hf2
        rw [← this]
      have hkey : p = pathJoin dir n := by
        apply str_ext
        have h2 := dropPref_eq_append hd
        rw [h2, ← hn]
        simp [pathJoin, String.data_append]
      rw [← hkey]
      exact hp

theorem listdir_mem_lookup {fs : FS} {dir n : String} (h : n ∈ listdir fs dir) :
    ∃ b, fs.lookup (pathJoin dir n) = some b :=
  FS.lookup_of_mem_keys (listdir_key h)

theorem listdir_nodup {fs : FS} (dir : String) (h : (fs.map Prod.fst).Nodup) :
    (listdir fs dir).Nodup := by
  apply List.Nodup.filterMap _ h
  intro p q n hp hq
  cases hdp : dropPref (dir ++ "/").data p.data with
  | none => rw [hdp] at hp; cases hp
  | some restp =>
    rw [hdp] at hp
    cases hdq : dropPref (dir ++ "/").data q.data with
    | none => rw [hdq] at hq; cases hq
    | some restq =>
      rw [hdq] at hq
      have hp2 : (if restp.contains '/' = true then (none : Option String)
          else some (String.mk restp)) = some n := hp
      have hq2 : (if restq.contains '/' = true then (none : Option String)
          else some (String.mk restq)) = some n := hq
      by_cases hcp : restp.contains '/' = true
      · rw [if_pos hcp] at hp2; cases hp2
      · by_cases hcq : restq.contains '/' = true
        · rw [if_pos hcq] at hq2; cases hq2
        · rw [if_neg hcp] at hp2
          rw [if_neg hcq] at hq2
          have hpq : restp = restq := by
            have h1 := Option.some.inj hp2
            have h2 := Option.some.inj hq2
            have h3 : String.mk restp = String.mk restq := h1.trans h2.symm
            cases h3
            rfl
          apply str_ext
          rw [dropPref_eq_append hdp, dropPref_eq_append hdq, hpq]

theorem compressLoop_cons_stale_ok {cur n : String} {fs : FS} {b : Bytes}
    (dir : String) (rest : List String) (h : StaleLog cur n)
    (hb : fs.lookup (pathJoin dir n) = some b) :
    compressLoop false dir cur (n :: rest) fs =
      compressLoop false dir cur rest
        ((fs.set (pathJoin dir n ++ ".gz") (.gzipped b)).remove (pathJoin dir n)) := by
  obtain ⟨h1, h2, h3⟩ := h
  simp [compressLoop, h1, h2, h3, archive_log_file, hb]

theorem compressLoop_cons_skip {cur n : String} {fs : FS} (io : Bool)
    (dir : String) (rest : List String) (h : ¬ StaleLog cur n) :
    compressLoop io dir cur (n :: rest) fs = compressLoop io dir cur rest fs := by
  unfold StaleLog at h
  push_neg at h
  by_cases h1 : strStartsWith n "log_" = true
  · by_cases h2 : strEndsWith n ".log" = true
    · have h3 := h h1 h2
      simp [compressLoop, h1, h2, h3]
    · simp [compressLoop, h1, h2]
  · simp [compressLoop, h1]

theorem pathJoin_log_ne_gz {m : String} (dir x : String)
    (hm : strEndsWith m ".log" = true) : pathJoin dir m ≠ x ++ ".gz" := by
  obtain ⟨m0, hm0⟩ := strEndsWith_ex hm
  rw [hm0]
  have h1 : pathJoin dir (m0 ++ ".log") = (dir ++ "/" ++ m0) ++ ".log" := by
    simp [pathJoin, String.append_assoc]
  rw [h1]
  exact fun hc => gz_ne_log x (dir ++ "/" ++ m0) hc.symm

theorem compressLoop_spec (dir cur : String) : ∀ (ns : List String) (fs : FS),
    ns.Nodup →
    (∀ m ∈ ns, StaleLog cur m → ∃ b, fs.lookup (pathJoin dir m) = some b) →
    (compressLoop false dir cur ns fs).2 = none
    ∧ (∀ m ∈ ns, StaleLog cur m → ∀ b, fs.lookup (pathJoin dir m) = some b →
        (compressLoop false dir cur ns fs).1.lookup (pathJoin dir m) = none
        ∧ (compressLoop false dir cur ns fs).1.lookup (pathJoin dir m ++ ".gz")
            = some (.gzipped b))
    ∧ (∀ p : String,
        (∀ m ∈ ns, StaleLog cur m → p ≠ pathJoin dir m ∧ p ≠ pathJoin dir m ++ ".gz") →
        (compressLoop false dir cur ns fs).1.lookup p = fs.lookup p) := by
  intro ns
  induction ns with
  | nil =>
    intro fs _ _
    refine ⟨rfl, ?_, ?_⟩
    · intro m hm
      cases hm
    · intro p _
      rfl
  | cons n rest ih =>
    intro fs hnd hpres
    have hndr : rest.Nodup := (List.nodup_cons.mp hnd).2
    have hnmem : n ∉ rest := (List.nodup_cons.mp hnd).1
    by_cases hst : StaleLog cur n
    · obtain ⟨b, hb⟩ := hpres n (List.mem_cons_self n rest) hst
      set fs1 := (fs.set (pathJoin dir n ++ ".gz") (.gzipped b)).remove (pathJoin dir n)
        with hfs1
      have hloop := compressLoop_cons_stale_ok dir rest hst hb
      have hpres1 : ∀ q : String, q ≠ pathJoin dir n → q ≠ pathJoin dir n ++ ".gz" →
          fs1.lookup q = fs.lookup q := by
        intro q h1 h2
        rw [hfs1, FS.lookup_remove_ne _ (Ne.symm h1), FS.lookup_set_ne _ (Ne.symm h2)]
      have hdiff : ∀ m ∈ rest, StaleLog cur m →
          pathJoin dir m ≠ pathJoin dir n ∧ pathJoin dir m ≠ pathJoin dir n ++ ".gz" := by
        intro m hm hsm
        constructor
        · intro hc
          exact hnmem ((pathJoin_inj hc) ▸ hm)
        · exact pathJoin_log_ne_gz dir (pathJoin dir n) hsm.2.1
      have hpres' : ∀ m ∈ rest, StaleLog cur m →
          ∃ c, fs1.lookup (pathJoin dir m) = some c := by
        intro m hm hsm
        obtain ⟨hd1, hd2⟩ := hdiff m hm hsm
        rw [hpres1 _ hd1 hd2]
        exact hpres m (List.mem_cons_of_mem n hm) hsm
      obtain ⟨ihe, ihb, ihc⟩ := ih fs1 hndr hpres'
      rw [hloop]
      refine ⟨ihe, ?_, ?_⟩
      · intro m hm hsm b2 hb2
        rcases List.mem_cons.mp hm with rfl | hmr
        · have hbb : b2 = b := (Option.some.inj (hb.symm.trans hb2)).symm
          subst hbb
          have hc1 : ∀ m' ∈ rest, StaleLog cur m' →
              pathJoin dir m ≠ pathJoin dir m'
              ∧ pathJoin dir m ≠ pathJoin dir m' ++ ".gz" := by
            intro m' hm' hsm'
            constructor
            · intro hc
              exact hnmem ((pathJoin_inj hc).symm ▸ hm')
            · exact pathJoin_log_ne_gz dir (pathJoin dir m') hst.2.1
          have hc2 : ∀ m' ∈ rest, StaleLog cur m' →
              pathJoin dir m ++ ".gz" ≠ pathJoin dir m'
              ∧ pathJoin dir m ++ ".gz" ≠ pathJoin dir m' ++ ".gz" := by
            intro m' hm' hsm'
            constructor
            · exact Ne.symm (pathJoin_log_ne_gz dir (pathJoin dir m) hsm'.2.1)
            · intro hc
              exact hnmem ((pathJoin_inj (str_append_cancel_right hc)).symm ▸ hm')
          constructor
          · rw [ihc (pathJoin dir m) hc1, hfs1]
            exact FS.lookup_remove_self _ _
          · rw [ihc (pathJoin dir m ++ ".gz") hc2, hfs1,
              FS.lookup_remove_ne _
                (fun hc => append_gz_ne_self (pathJoin dir m) hc.symm)]
            exact FS.lookup_set_self _ _ _
        · obtain ⟨hd1, hd2⟩ := hdiff m hmr hsm
          have hb2' : fs1.lookup (pathJoin dir m) = some b2 := by
            rw [hpres1 _ hd1 hd2]
            exact hb2
          exact ihb m hmr hsm b2 hb2'
      · intro p hp
        have hpn := hp n (List.mem_cons_self n rest) hst
        rw [ihc p (fun m' hm' hsm' => hp m' (List.mem_cons_of_mem n hm') hsm')]
        exact hpres1 p hpn.1 hpn.2
    · rw [compressLoop_cons_skip false dir rest hst]
      obtain ⟨ihe, ihb, ihc⟩ :=
        ih fs hndr (fun m hm hsm => hpres m (List.mem_cons_of_mem n hm) hsm)
      refine ⟨ihe, ?_, ?_⟩
      · intro m hm hsm b2 hb2
        rcases List.mem_cons.mp hm with rfl | hmr
        · exact absurd hsm hst
        · exact ihb m hmr hsm b2 hb2
      · intro p hp
        exact ihc p (fun m' hm' hsm' => hp m' (List.mem_cons_of_mem n hm') hsm')

/-- Claim C6, counterexample: the startup scan archives the entry
`log_a.log`, whose name does not match the pattern `log_<10-char-date>.log`
(it is 9 characters long), because the source checks only the `log_` prefix,
the `.log` suffix, and the slice `name[4:14]` — so a file the claim says is
left untouched is in fact compressed and removed. -/
theorem startup_scan_pattern_cx :
    specLogNamePattern "log_a.log" = false
    ∧ (myLoggerInit "logs" "DEBUG" "10-12-2026" false
        [("logs/log_a.log", Bytes.text "x")]).2.1.lookup "logs/log_a.log" = none
    ∧ (myLoggerInit "logs" "DEBUG" "10-12-2026" false
        [("logs/log_a.log", Bytes.text "x")]).2.1.lookup "logs/log_a.log.gz"
      = some (Bytes.gzipped (Bytes.text "x")) := by
  decide

/-- Claim C6, amended: at construction time the startup scan archives exactly
those directory entries whose name starts with `log_` and ends with `.log`
and whose characters 5 through 14 (the slice `name[4:14]`) differ from
`activeDate` — a 10-character embedded date is not required; every other
entry is left untouched, unless it is the `.gz` target of an archived entry
(which archival overwrites). -/
theorem startup_scan_archives_stale_matches (log_dir level_arg today : String)
    (fs : FS) (hnd : (fs.map Prod.fst).Nodup) :
    (myLoggerInit log_dir level_arg today false fs).2.2 = none
    ∧ ∀ n ∈ listdir fs log_dir,
      (StaleLog today n → ∀ b, fs.lookup (pathJoin log_dir n) = some b →
        (myLoggerInit log_dir level_arg today false fs).2.1.lookup
            (pathJoin log_dir n) = none
        ∧ (myLoggerInit log_dir level_arg today false fs).2.1.lookup
            (pathJoin log_dir n ++ ".gz") = some (.gzipped b))
      ∧ (¬ StaleLog today n →
        (∀ m ∈ listdir fs log_dir, StaleLog today m → n ≠ m ++ ".gz") →
        (myLoggerInit log_dir level_arg today false fs).2.1.lookup (pathJoin log_dir n)
          = fs.lookup (pathJoin log_dir n)) := by
  have hinit1 : (myLoggerInit log_dir level_arg today false fs).2.1
      = (compressLoop false log_dir today (listdir fs log_dir) fs).1 := rfl
  have hinit2 : (myLoggerInit log_dir level_arg today false fs).2.2
      = (compressLoop false log_dir today (listdir fs log_dir) fs).2 := rfl
  have hnl := listdir_nodup log_dir hnd
  have hpres : ∀ m ∈ listdir fs log_dir, StaleLog today m →
      ∃ b, fs.lookup (pathJoin log_dir m) = some b :=
    fun _ hm _ => listdir_mem_lookup hm
  obtain ⟨he, hb, hc⟩ := compressLoop_spec log_dir today (listdir fs log_dir) fs hnl hpres
  refine ⟨by rw [hinit2]; exact he, ?_⟩
  intro n hmem
  constructor
  · intro hst b hbl
    rw [hinit1]
    exact hb n hmem hst b hbl
  · intro hst hngz
    rw [hinit1]
    apply hc
    intro m hm hsm
    constructor
    · intro hcq
      exact hst ((pathJoin_inj hcq).symm ▸ hsm)
    · intro hcq
      have h2 : pathJoin log_dir m ++ ".gz" = pathJoin log_dir (m ++ ".gz") := by
        simp [pathJoin, String.append_assoc]
      rw [h2] at hcq
      exact hngz m hm hsm (pathJoin_inj hcq)

/-- Witness for the amended claim C6: a stale file named for a past date is
archived by construction, and an entry with a matching name but the current
embedded date is left untouched. -/
theorem startup_scan_archives_stale_matches_witness :
    ((myLoggerInit "logs" "DEBUG" "10-12-2026" false
        [("logs/log_01-01-2020.log", Bytes.text "old"),
         ("logs/log_10-12-2026.log", Bytes.text "cur")]).2.1.lookup
      (pathJoin "logs" "log_01-01-2020.log") = none)
    ∧ ((myLoggerInit "logs" "DEBUG" "10-12-2026" false
        [("logs/log_01-01-2020.log", Bytes.text "old"),
         ("logs/log_10-12-2026.log", Bytes.text "cur")]).2.1.lookup
      (pathJoin "logs" "log_01-01-2020.log" ++ ".gz")
        = some (Bytes.gzipped (Bytes.text "old")))
    ∧ ((myLoggerInit "logs" "DEBUG" "10-12-2026" false
        [("logs/log_01-01-2020.log", Bytes.text "old"),
         ("logs/log_10-12-2026.log", Bytes.text "cur")]).2.1.lookup
      (pathJoin "logs" "log_10-12-2026.log")
        = [("logs/log_01-01-2020.log", Bytes.text "old"),
           ("logs/log_10-12-2026.log", Bytes.text "cur")].lookup
            (pathJoin "logs" "log_10-12-2026.log")) := by
  have h := startup_scan_archives_stale_matches "logs" "DEBUG" "10-12-2026"
    [("logs/log_01-01-2020.log", Bytes.text "old"),
     ("logs/log_10-12-2026.log", Bytes.text "cur")] (by decide)
  have h1 := (h.2 "log_01-01-2020.log" (by decide)).1 (by decide)
    (Bytes.text "old") (by decide)
  have h2 := (h.2 "log_10-12-2026.log" (by decide)).2 (by decide)
    (by decide)
  exact ⟨h1.1, h1.2, h2⟩

end DevTools
